import Mathlib

/-!
# Verification of the fartopia sound sequencer and looping controller

Shallow embedding of the two core components of `src/index.ts` (main file)
and `src/unnamed/part_000` (an older variant that also registers
`/fartloud` and `/fartwhisper` and skips letters whose sound file is
missing on disk):

* the Sequential Playback Scheduler (`handleFartSpeak` /
  `playAudioWithDuration` together with the `FART_DURATIONS` table), and
* the Looping Audio Interrupt State Machine (`attachLoopingFartSound`,
  the `/fartstep` toggle handler, `onTickWithPlayerInput` and the
  interrupt-resume timer callback).

Durations are modelled in milliseconds of virtual time; volumes and
playback rates as exact rationals; the audio heap as a list of handle
records indexed by position, so that "pausing a handle" is an in-place
field update just as in the source, where each `Audio` object is mutated
through the captured reference.
-/

namespace Fartopia

/-- The `FART_DURATIONS` table from `src/index.ts` (identical in
`src/unnamed/part_000`): nominal duration in seconds per uppercase
letter; `none` for any character not present in the record. -/
def FART_DURATIONS (c : Char) : Option Nat :=
  if c = 'A' then some 0
  else if c = 'B' then some 0
  else if c = 'C' then some 1
  else if c = 'D' then some 0
  else if c = 'E' then some 0
  else if c = 'F' then some 0
  else if c = 'G' then some 1
  else if c = 'H' then some 1
  else if c = 'I' then some 1
  else if c = 'J' then some 9
  else if c = 'K' then some 2
  else if c = 'L' then some 1
  else if c = 'M' then some 1
  else if c = 'N' then some 1
  else if c = 'O' then some 1
  else if c = 'P' then some 0
  else if c = 'Q' then some 3
  else if c = 'R' then some 1
  else if c = 'S' then some 1
  else if c = 'T' then some 0
  else if c = 'U' then some 1
  else if c = 'V' then some 3
  else if c = 'W' then some 1
  else if c = 'X' then some 3
  else if c = 'Y' then some 0
  else if c = 'Z' then some 5
  else none

/-- The duration computation inside `playAudioWithDuration`:
`durationSec = FART_DURATIONS[letter] ?? 1` followed by
`safeDuration = durationSec < 1 ? 1 : durationSec`. -/
def safeDuration (letter : Char) : Nat :=
  let durationSec := (FART_DURATIONS letter).getD 1
  if durationSec < 1 then 1 else durationSec

/-- JS `String.prototype.toUpperCase` restricted to the ASCII fragment
this program feeds it: uppercase each character. -/
def toUpperStr (s : String) : String :=
  String.mk (s.data.map Char.toUpper)

/-- Observable events of one scheduler invocation: chat messages sent to
the player, calls into `playAudioWithDuration` (playback attempts),
playback starts handed to the audio engine, and console log lines. -/
inductive SEvent where
  | message (text : String)
  | attempt (uri : String) (letter : Char)
  | playStart (uri : String) (volume : ℚ)
  | log (text : String)
  deriving Repr, DecidableEq

/-- One call of `playAudioWithDuration world soundUri letter volumeFactor`:
returns the emitted events together with the virtual-time delay (ms)
before the returned promise resolves.  `fails` tells whether constructing
or starting the sound throws; in that case the `catch` block logs the
error and resolves immediately (delay 0, no playback start).  The
`attempt` event records the call itself. -/
def playAudioWithDuration (soundUri : String) (letter : Char)
    (volumeFactor : ℚ) (fails : Bool) : List SEvent × Nat :=
  let dur := safeDuration letter
  if fails then
    ([SEvent.attempt soundUri letter,
      SEvent.log ("Failed to play sound: " ++ soundUri)], 0)
  else
    ([SEvent.attempt soundUri letter,
      SEvent.playStart soundUri (1 * volumeFactor),
      SEvent.log ("Playing: " ++ soundUri)], dur * 1000)

/-- The sound identifier built in the loop body of `handleFartSpeak`. -/
def soundUriFor (letter : Char) : String :=
  "audio/sfx/farts/fart" ++ letter.toString ++ ".mp3"

/-- The usage hint sent when the joined input is empty. -/
def usageText (commandName : String) : String :=
  "Usage: " ++ commandName ++ " <letters>. Example: " ++ commandName ++ " SAM"

/-- The hint sent when normalization leaves no letters. -/
def noValidText (commandName : String) : String :=
  "No valid letters found. Example: " ++ commandName ++ " SAM"

/-- The completion message sent after the sequence finishes: it names the
letters of the filtered list. -/
def completionText (commandName : String) (letters : List Char) : String :=
  commandName ++ " sequence [" ++ letters.asString ++ "] complete!"

/-- The sequential loop of `handleFartSpeak` (main `src/index.ts`
variant): for each letter, in order, call `playAudioWithDuration` and
wait out its delay before the next letter.  Events are timestamped with
the virtual time (ms since the loop started) at which they occur; the
second component is the virtual time after the last letter's delay. -/
def runLetters (volumeFactor : ℚ) (fails : Char → Bool) :
    List Char → Nat → List (Nat × SEvent) × Nat
  | [], t => ([], t)
  | c :: rest, t =>
    let (evs, d) := playAudioWithDuration (soundUriFor c) c volumeFactor (fails c)
    let (restEvs, tEnd) := runLetters volumeFactor fails rest (t + d)
    (evs.map (fun e => (t, e)) ++ restEvs, tEnd)

/-- `handleFartSpeak` from `src/index.ts`: join the argument tokens,
uppercase, handle the empty-input and no-valid-letters cases, then play
each surviving letter sequentially and send the completion message.
`fails` is the oracle saying which letters' sound start throws. -/
def handleFartSpeak (args : List String) (commandName : String)
    (volumeFactor : ℚ) (fails : Char → Bool) : List (Nat × SEvent) :=
  let fartString := toUpperStr (String.join args)
  if fartString = "" then
    [(0, SEvent.message (usageText commandName))]
  else
    let letters := fartString.toList.filter (fun c => 'A' ≤ c && c ≤ 'Z')
    if letters = [] then
      [(0, SEvent.message (noValidText commandName))]
    else
      let (evs, tEnd) := runLetters volumeFactor fails letters 0
      evs ++ [(tEnd, SEvent.message (completionText commandName letters))]

/-- The chat messages of a trace, in order (the user-visible channel). -/
def messagesOf (trace : List (Nat × SEvent)) : List String :=
  trace.filterMap fun p =>
    match p.2 with
    | SEvent.message t => some t
    | _ => none

/-- The playback attempts of a trace, in order: the letter and the sound
identifier of each `playAudioWithDuration` call. -/
def attemptsOf (trace : List (Nat × SEvent)) : List (Char × String) :=
  trace.filterMap fun p =>
    match p.2 with
    | SEvent.attempt uri c => some (c, uri)
    | _ => none

/-- The successful playback starts of a trace, in order, with their
volumes. -/
def playStartsOf (trace : List (Nat × SEvent)) : List (String × ℚ) :=
  trace.filterMap fun p =>
    match p.2 with
    | SEvent.playStart u v => some (u, v)
    | _ => none

/-- Modelled from the spec (§4.2 input normalization), for the refinement
claim C3: concatenate all argument tokens, uppercase, then filter to
characters in `[A-Z]`, preserving order and duplicates. -/
def specNormalize (args : List String) : List Char :=
  (toUpperStr (String.join args)).toList.filter (fun c => 'A' ≤ c && c ≤ 'Z')

/-! ## The `src/unnamed/part_000` variant of the scheduler

Identical to the main variant except that before each playback it builds
`fullPath = "C:/Users/b1fre/fartopia/assets/" ++ soundUri` and, when
`existsSync fullPath` is false, logs the missing file and `continue`s,
skipping that letter's playback entirely. -/

/-- The full on-disk path checked before each playback in `part_000`:
`fullPath = "C:/Users/b1fre/fartopia/assets/" + soundUri`. -/
def fullPathFor (letter : Char) : String :=
  "C:/Users/b1fre/fartopia/assets/" ++ soundUriFor letter

/-- The sequential loop of the `part_000` `handleFartSpeak`: `existsSync`
is the file-existence oracle over full paths. -/
def runLettersV0 (volumeFactor : ℚ) (existsSync : String → Bool)
    (fails : Char → Bool) : List Char → Nat → List (Nat × SEvent) × Nat
  | [], t => ([], t)
  | c :: rest, t =>
    let soundUri := soundUriFor c
    let fullPath := fullPathFor c
    if !existsSync fullPath then
      let (restEvs, tEnd) := runLettersV0 volumeFactor existsSync fails rest t
      ((t, SEvent.log ("File does not exist: " ++ fullPath)) :: restEvs, tEnd)
    else
      let (evs, d) := playAudioWithDuration soundUri c volumeFactor (fails c)
      let (restEvs, tEnd) := runLettersV0 volumeFactor existsSync fails rest (t + d)
      (evs.map (fun e => (t, e)) ++ restEvs, tEnd)

/-- `handleFartSpeak` from `src/unnamed/part_000`. -/
def handleFartSpeakV0 (args : List String) (commandName : String)
    (volumeFactor : ℚ) (existsSync : String → Bool) (fails : Char → Bool) :
    List (Nat × SEvent) :=
  let fartString := toUpperStr (String.join args)
  if fartString = "" then
    [(0, SEvent.message (usageText commandName))]
  else
    let letters := fartString.toList.filter (fun c => 'A' ≤ c && c ≤ 'Z')
    if letters = [] then
      [(0, SEvent.message (noValidText commandName))]
    else
      let (evs, tEnd) := runLettersV0 volumeFactor existsSync fails letters 0
      evs ++ [(tEnd, SEvent.message (completionText commandName letters))]

/-- The `/fartspeak` registration of `part_000`: factor 1.0. -/
def fartspeakCommandV0 (args : List String) (existsSync : String → Bool)
    (fails : Char → Bool) : List (Nat × SEvent) :=
  handleFartSpeakV0 args "/fartspeak" 1 existsSync fails

/-- The `/fartloud` registration of `part_000`: factor 2.0. -/
def fartloudCommandV0 (args : List String) (existsSync : String → Bool)
    (fails : Char → Bool) : List (Nat × SEvent) :=
  handleFartSpeakV0 args "/fartloud" 2 existsSync fails

/-- The `/fartwhisper` registration of `part_000`: factor 0.3. -/
def fartwhisperCommandV0 (args : List String) (existsSync : String → Bool)
    (fails : Char → Bool) : List (Nat × SEvent) :=
  handleFartSpeakV0 args "/fartwhisper" (3 / 10) existsSync fails

/-- The `/fartspeak` registration of `src/index.ts`: factor 1.0, no
file-existence check. -/
def fartspeakCommand (args : List String) (fails : Char → Bool) :
    List (Nat × SEvent) :=
  handleFartSpeak args "/fartspeak" 1 fails

/-! ## The Looping Audio Interrupt State Machine (`src/index.ts`)

The audio heap is a list of handle records; `fartSound` holds the index
of the module-level `fartSound` reference (or `none` for `null`).
`lastSpace` and `spaceInterruptActive` are the closure-captured flags of
`onTickWithPlayerInput`.  A pending resume timer exists exactly while
`spaceInterruptActive` is true (it is set when the interrupt fires and
cleared by the timer callback, the only two writers), so the timer queue
needs no separate field: the `timerFire` operation is enabled iff the
flag is set. -/

/-- One `Audio` handle as mutated by the controller. -/
structure AudioH where
  uri : String
  volume : ℚ
  loop : Bool
  attachedToEntity : Option Nat
  referenceDistance : Option Nat
  paused : Bool
  playbackRate : ℚ
  deriving Repr, DecidableEq

/-- The controller's mutable state. -/
structure LoopState where
  audios : List AudioH
  fartSound : Option Nat
  lastSpace : Bool
  spaceInterruptActive : Bool
  deriving Repr, DecidableEq

/-- Observable events of one controller operation. -/
inductive LEvent where
  | pauseSound (idx : Nat)
  | startLoop (idx : Nat) (entity : Nat)
  | oneShot (uri : String)
  | scheduleResume (delayMs : Nat)
  | warnNoEntity
  deriving Repr, DecidableEq

/-- In-place update of the handle at index `i` (mutating the object the
captured reference points to). -/
def modifyAt (f : AudioH → AudioH) : List AudioH → Nat → List AudioH
  | [], _ => []
  | a :: rest, 0 => f a :: rest
  | a :: rest, n + 1 => a :: modifyAt f rest n

/-- `handle.pause()` on the handle at index `i`. -/
def pauseAt (audios : List AudioH) (i : Nat) : List AudioH :=
  modifyAt (fun a => { a with paused := true }) audios i

/-- `handle.setPlaybackRate(r)` on the handle at index `i`. -/
def setRateAt (audios : List AudioH) (i : Nat) (r : ℚ) : List AudioH :=
  modifyAt (fun a => { a with playbackRate := r }) audios i

/-- The handle at index `i` is a live looping resource: it exists, was
created with `loop: true`, and has not been paused. -/
def isLiveLoopAt (audios : List AudioH) (i : Nat) : Bool :=
  match audios[i]? with
  | some a => a.loop && !a.paused
  | none => false

/-- The looping `fartJ` handle constructed by `attachLoopingFartSound`,
attached to entity `e`. -/
def fartJAudio (e : Nat) : AudioH :=
  { uri := "audio/sfx/farts/fartJ.mp3", volume := 1, loop := true,
    attachedToEntity := some e, referenceDistance := some 5,
    paused := false, playbackRate := 1 }

/-- The one-shot `fartE` handle constructed in the interrupt branch of
`onTickWithPlayerInput`. -/
def fartEAudio : AudioH :=
  { uri := "audio/sfx/farts/fartE.mp3", volume := 1, loop := false,
    attachedToEntity := none, referenceDistance := none,
    paused := false, playbackRate := 1 }

/-- `attachLoopingFartSound(world, player)`: if no player entity exists,
warn and return; otherwise pause any existing `fartSound`, construct the
looping `fartJ` handle attached to the entity, store it in `fartSound`,
and start it.  `entity` is the id of `playerEntities[0]`, or `none` when
the lookup comes back empty. -/
def attachLoopingFartSound (entity : Option Nat) (s : LoopState) :
    LoopState × List LEvent :=
  match entity with
  | none => (s, [LEvent.warnNoEntity])
  | some e =>
    let (audios1, evs1) :=
      match s.fartSound with
      | some i => (pauseAt s.audios i, [LEvent.pauseSound i])
      | none => (s.audios, ([] : List LEvent))
    let newIdx := audios1.length
    ({ s with audios := audios1 ++ [fartJAudio e], fartSound := some newIdx },
     evs1 ++ [LEvent.startLoop newIdx e])

/-- The `/fartstep` command handler: if `fartSound` is non-null, pause it
and null the reference; otherwise call `attachLoopingFartSound`. -/
def fartstepToggle (entity : Option Nat) (s : LoopState) :
    LoopState × List LEvent :=
  match s.fartSound with
  | some i =>
    ({ s with audios := pauseAt s.audios i, fartSound := none },
     [LEvent.pauseSound i])
  | none => attachLoopingFartSound entity s

/-- `onTickWithPlayerInput`: reassert the playback rate from the held
Shift flag `sh`, then, on a rising edge of the Space flag `sp` while a
loop is live and no interrupt is pending, pause the loop, play the
one-shot `fartE` sound and schedule the 1000 ms resume; finally record
`lastSpace = sp`. -/
def onTickWithPlayerInput (sh sp : Bool) (s : LoopState) :
    LoopState × List LEvent :=
  let audios1 :=
    match s.fartSound with
    | some i => setRateAt s.audios i (if sh then 5 / 2 else 1)
    | none => s.audios
  let s1 := { s with audios := audios1 }
  let (s2, evs) :=
    match s1.fartSound with
    | some i =>
      if sp && !s1.lastSpace && !s1.spaceInterruptActive then
        ({ s1 with audios := pauseAt s1.audios i ++ [fartEAudio],
                   fartSound := none, spaceInterruptActive := true },
         [LEvent.pauseSound i, LEvent.oneShot "audio/sfx/farts/fartE.mp3",
          LEvent.scheduleResume 1000])
      else (s1, ([] : List LEvent))
    | none => (s1, ([] : List LEvent))
  ({ s2 with lastSpace := sp }, evs)

/-- The resume `setTimeout` callback: reattach the loop, then clear the
pending flag unconditionally. -/
def resumeTimerFire (entity : Option Nat) (s : LoopState) :
    LoopState × List LEvent :=
  let (s1, evs) := attachLoopingFartSound entity s
  ({ s1 with spaceInterruptActive := false }, evs)

/-- The operations that can touch the controller state. -/
inductive Op where
  | toggle (entity : Option Nat)
  | tick (sh sp : Bool)
  | timerFire (entity : Option Nat)
  deriving Repr, DecidableEq

/-- Apply one operation.  `timerFire` is a no-op unless an interrupt is
pending: the timer exists exactly while `spaceInterruptActive` is set. -/
def applyOp (op : Op) (s : LoopState) : LoopState × List LEvent :=
  match op with
  | Op.toggle e => fartstepToggle e s
  | Op.tick sh sp => onTickWithPlayerInput sh sp s
  | Op.timerFire e =>
    if s.spaceInterruptActive then resumeTimerFire e s else (s, [])

/-- The initial state: no audio handles, `fartSound = null`, both flags
false. -/
def initState : LoopState :=
  { audios := [], fartSound := none, lastSpace := false,
    spaceInterruptActive := false }

/-- Run a list of operations from a state. -/
def runOps : List Op → LoopState → LoopState
  | [], s => s
  | op :: rest, s => runOps rest (applyOp op s).1

/-- A state the controller can actually be in. -/
def Reachable (s : LoopState) : Prop :=
  ∃ ops, runOps ops initState = s

/-- No audio handle is a live looping resource. -/
def NoLiveLoop (s : LoopState) : Prop :=
  ∀ j, isLiveLoopAt s.audios j = false

/-- The `fartSound` reference holds a live looping resource attached to
entity `e`. -/
def liveAttachedLoop (s : LoopState) (e : Nat) : Prop :=
  ∃ n, s.fartSound = some n ∧ isLiveLoopAt s.audios n = true ∧
    (s.audios[n]?).map AudioH.attachedToEntity = some (some e)

/-- The single-live-loop invariant: every live looping handle is the one
the `fartSound` reference currently points to. -/
def LoopInv (s : LoopState) : Prop :=
  ∀ i, isLiveLoopAt s.audios i = true → s.fartSound = some i

/-- Behaviour of one `/fartstep` toggle (and of two in a row) with the
player entity `e` present: releasing when a live reference exists,
attaching when the reference is empty. -/
def ToggleSpec (s : LoopState) (e : Nat) : Prop :=
  (∀ i, s.fartSound = some i →
    (fartstepToggle (some e) s).1.fartSound = none ∧
      NoLiveLoop (fartstepToggle (some e) s).1) ∧
  (s.fartSound = none → liveAttachedLoop (fartstepToggle (some e) s).1 e) ∧
  (s.fartSound = none →
    (fartstepToggle (some e) (fartstepToggle (some e) s).1).1.fartSound = none ∧
      NoLiveLoop (fartstepToggle (some e) (fartstepToggle (some e) s).1).1)

/-- Behaviour of a rising edge of the Space key while a loop is live and
no interrupt is pending: exactly one pause of the live handle, one
one-shot start, one resume scheduled 1000 ms later; the loop reference
is cleared and the pending flag set. -/
def TickInterruptSpec (s : LoopState) (i : Nat) (sh : Bool) : Prop :=
  (onTickWithPlayerInput sh true s).2 =
    [LEvent.pauseSound i, LEvent.oneShot "audio/sfx/farts/fartE.mp3",
     LEvent.scheduleResume 1000] ∧
  (onTickWithPlayerInput sh true s).1.spaceInterruptActive = true ∧
  (onTickWithPlayerInput sh true s).1.fartSound = none ∧
  isLiveLoopAt (onTickWithPlayerInput sh true s).1.audios i = false

/-- Exactly one completion message, emitted last, at a virtual time no
earlier than every other event of the trace, naming `letters`. -/
def CompletionSpec (trace : List (Nat × SEvent)) (commandName : String)
    (letters : List Char) : Prop :=
  ∃ evs tEnd,
    trace = evs ++ [(tEnd, SEvent.message (completionText commandName letters))] ∧
    (∀ p ∈ evs, p.1 ≤ tEnd) ∧
    messagesOf trace = [completionText commandName letters]

/-- Behaviour of the interrupt's resume timer firing (entity lookup
result `e`): the pending flag is cleared unconditionally; with an entity
a fresh live loop is attached; without one the state is otherwise
untouched and a warning is logged. -/
def ResumeSpec (s : LoopState) (e : Option Nat) : Prop :=
  (applyOp (Op.timerFire e) s).1.spaceInterruptActive = false ∧
  (∀ ent, e = some ent → liveAttachedLoop (applyOp (Op.timerFire e) s).1 ent) ∧
  (e = none →
    (applyOp (Op.timerFire e) s).1.fartSound = s.fartSound ∧
    (applyOp (Op.timerFire e) s).1.audios = s.audios ∧
    (applyOp (Op.timerFire e) s).2 = [LEvent.warnNoEntity])

/-! ## Helper lemmas: the audio heap and the single-loop invariant -/

theorem modifyAt_getElem? (f : AudioH → AudioH) (l : List AudioH) (i j : Nat) :
    (modifyAt f l i)[j]? = if i = j then (l[j]?).map f else l[j]? := by
  induction l generalizing i j with
  | nil => simp [modifyAt]
  | cons a rest ih =>
    cases i with
    | zero =>
      cases j with
      | zero => simp [modifyAt]
      | succ j => simp [modifyAt]
    | succ i =>
      cases j with
      | zero => simp [modifyAt]
      | succ j => simpa [modifyAt] using ih i j

theorem isLiveLoopAt_pauseAt_self (l : List AudioH) (i : Nat) :
    isLiveLoopAt (pauseAt l i) i = false := by
  simp only [isLiveLoopAt, pauseAt, modifyAt_getElem?, if_pos rfl]
  cases l[i]? with
  | none => rfl
  | some a => simp

theorem isLiveLoopAt_pauseAt_ne (l : List AudioH) (i j : Nat) (h : i ≠ j) :
    isLiveLoopAt (pauseAt l i) j = isLiveLoopAt l j := by
  simp only [isLiveLoopAt, pauseAt, modifyAt_getElem?, if_neg h]

theorem isLiveLoopAt_setRateAt (l : List AudioH) (i : Nat) (r : ℚ) (j : Nat) :
    isLiveLoopAt (setRateAt l i r) j = isLiveLoopAt l j := by
  simp only [isLiveLoopAt, setRateAt, modifyAt_getElem?]
  rcases Decidable.em (i = j) with h | h
  · subst h
    simp only [if_pos rfl]
    cases l[i]? with
    | none => rfl
    | some a => rfl
  · simp [if_neg h]

theorem isLiveLoopAt_append_lt (l1 l2 : List AudioH) (j : Nat) (h : j < l1.length) :
    isLiveLoopAt (l1 ++ l2) j = isLiveLoopAt l1 j := by
  simp only [isLiveLoopAt, List.getElem?_append_left h]

theorem isLiveLoopAt_append_ge (l1 l2 : List AudioH) (j : Nat) (h : l1.length ≤ j) :
    isLiveLoopAt (l1 ++ l2) j = isLiveLoopAt l2 (j - l1.length) := by
  simp only [isLiveLoopAt, List.getElem?_append_right h]

theorem isLiveLoopAt_singleton_eq_zero (a : AudioH) (k : Nat)
    (h : isLiveLoopAt [a] k = true) : k = 0 := by
  cases k with
  | zero => rfl
  | succ k => simp [isLiveLoopAt] at h

theorem noLive_of_inv_none (s : LoopState) (h : LoopInv s)
    (hn : s.fartSound = none) : NoLiveLoop s := by
  intro j
  cases hl : isLiveLoopAt s.audios j with
  | false => rfl
  | true => exact absurd (h j hl) (by simp [hn])

theorem noLive_pause_of_inv (s : LoopState) (i : Nat) (h : LoopInv s)
    (hi : s.fartSound = some i) :
    ∀ j, isLiveLoopAt (pauseAt s.audios i) j = false := by
  intro j
  rcases Decidable.em (i = j) with rfl | hne
  · exact isLiveLoopAt_pauseAt_self _ _
  · rw [isLiveLoopAt_pauseAt_ne _ _ _ hne]
    cases hl : isLiveLoopAt s.audios j with
    | false => rfl
    | true =>
      have := h j hl
      rw [hi] at this
      exact absurd (Option.some.inj this) hne

theorem inv_append_fresh (l1 : List AudioH) (hl : ∀ j, isLiveLoopAt l1 j = false)
    (a : AudioH) (s2 : LoopState) (ha : s2.audios = l1 ++ [a])
    (hf : s2.fartSound = some l1.length) : LoopInv s2 := by
  intro j hj
  rw [ha] at hj
  rcases Nat.lt_or_ge j l1.length with hlt | hge
  · rw [isLiveLoopAt_append_lt _ _ _ hlt, hl j] at hj
    cases hj
  · rw [isLiveLoopAt_append_ge _ _ _ hge] at hj
    have hz := isLiveLoopAt_singleton_eq_zero _ _ hj
    have : j = l1.length := by omega
    rw [hf, this]

theorem noLive_append_nonloop (l1 : List AudioH)
    (hl : ∀ j, isLiveLoopAt l1 j = false) (a : AudioH) (hna : a.loop = false) :
    ∀ j, isLiveLoopAt (l1 ++ [a]) j = false := by
  intro j
  rcases Nat.lt_or_ge j l1.length with hlt | hge
  · rw [isLiveLoopAt_append_lt _ _ _ hlt]; exact hl j
  · rw [isLiveLoopAt_append_ge _ _ _ hge]
    cases hk : j - l1.length with
    | zero => simp [isLiveLoopAt, hna]
    | succ k => simp [isLiveLoopAt]

/-! ## Helper lemmas: characterizations of the controller operations -/

theorem attach_none_eq (s : LoopState) :
    attachLoopingFartSound none s = (s, [LEvent.warnNoEntity]) := rfl

theorem attach_some_eq_none (e : Nat) (s : LoopState) (hfs : s.fartSound = none) :
    attachLoopingFartSound (some e) s =
      ({ s with audios := s.audios ++ [fartJAudio e],
                fartSound := some s.audios.length },
       [LEvent.startLoop s.audios.length e]) := by
  simp [attachLoopingFartSound, hfs]

theorem attach_some_eq_some (e : Nat) (s : LoopState) (i : Nat)
    (hfs : s.fartSound = some i) :
    attachLoopingFartSound (some e) s =
      ({ s with audios := pauseAt s.audios i ++ [fartJAudio e],
                fartSound := some (pauseAt s.audios i).length },
       [LEvent.pauseSound i, LEvent.startLoop (pauseAt s.audios i).length e]) := by
  simp [attachLoopingFartSound, hfs]

theorem attach_some_live (e : Nat) (s : LoopState) :
    liveAttachedLoop (attachLoopingFartSound (some e) s).1 e := by
  cases hfs : s.fartSound with
  | none =>
    rw [attach_some_eq_none e s hfs]
    refine ⟨s.audios.length, rfl, ?_, ?_⟩
    · rw [isLiveLoopAt_append_ge _ _ _ (le_refl _)]
      simp [isLiveLoopAt, fartJAudio]
    · simp [fartJAudio]
  | some i =>
    rw [attach_some_eq_some e s i hfs]
    refine ⟨(pauseAt s.audios i).length, rfl, ?_, ?_⟩
    · rw [isLiveLoopAt_append_ge _ _ _ (le_refl _)]
      simp [isLiveLoopAt, fartJAudio]
    · simp [fartJAudio]

theorem attach_preserves_inv (e : Option Nat) (s : LoopState) (h : LoopInv s) :
    LoopInv (attachLoopingFartSound e s).1 := by
  cases e with
  | none => rw [attach_none_eq]; exact h
  | some ent =>
    cases hfs : s.fartSound with
    | none =>
      rw [attach_some_eq_none ent s hfs]
      exact inv_append_fresh s.audios (noLive_of_inv_none s h hfs) _ _ rfl rfl
    | some i =>
      rw [attach_some_eq_some ent s i hfs]
      exact inv_append_fresh (pauseAt s.audios i)
        (noLive_pause_of_inv s i h hfs) _ _ rfl rfl

theorem toggle_eq_some (e : Option Nat) (s : LoopState) (i : Nat)
    (hi : s.fartSound = some i) :
    fartstepToggle e s =
      ({ s with audios := pauseAt s.audios i, fartSound := none },
       [LEvent.pauseSound i]) := by
  simp [fartstepToggle, hi]

theorem toggle_eq_none (e : Option Nat) (s : LoopState)
    (hn : s.fartSound = none) :
    fartstepToggle e s = attachLoopingFartSound e s := by
  simp [fartstepToggle, hn]

theorem toggle_preserves_inv (e : Option Nat) (s : LoopState) (h : LoopInv s) :
    LoopInv (fartstepToggle e s).1 := by
  cases hfs : s.fartSound with
  | none =>
    rw [toggle_eq_none e s hfs]
    exact attach_preserves_inv e s h
  | some i =>
    rw [toggle_eq_some e s i hfs]
    intro j hj
    have hdead := noLive_pause_of_inv s i h hfs j
    have hj2 : isLiveLoopAt (pauseAt s.audios i) j = true := hj
    rw [hdead] at hj2
    cases hj2

theorem tick_eq_none (sh sp : Bool) (s : LoopState) (hfs : s.fartSound = none) :
    onTickWithPlayerInput sh sp s = ({ s with lastSpace := sp }, []) := by
  simp [onTickWithPlayerInput, hfs]

theorem tick_eq_some_quiet (sh sp : Bool) (s : LoopState) (i : Nat)
    (hfs : s.fartSound = some i)
    (hcond : (sp && !s.lastSpace && !s.spaceInterruptActive) = false) :
    onTickWithPlayerInput sh sp s =
      ({ s with audios := setRateAt s.audios i (if sh then 5 / 2 else 1),
                lastSpace := sp }, []) := by
  simp [onTickWithPlayerInput, hfs, hcond]

theorem tick_eq_some_interrupt (sh sp : Bool) (s : LoopState) (i : Nat)
    (hfs : s.fartSound = some i)
    (hcond : (sp && !s.lastSpace && !s.spaceInterruptActive) = true) :
    onTickWithPlayerInput sh sp s =
      ({ s with
          audios := (pauseAt (setRateAt s.audios i (if sh then 5 / 2 else 1)) i
            ++ [fartEAudio]),
          fartSound := none, spaceInterruptActive := true, lastSpace := sp },
       [LEvent.pauseSound i, LEvent.oneShot "audio/sfx/farts/fartE.mp3",
        LEvent.scheduleResume 1000]) := by
  simp [onTickWithPlayerInput, hfs, hcond]

theorem inv_setRate (s : LoopState) (i : Nat) (r : ℚ) (h : LoopInv s) :
    LoopInv { s with audios := setRateAt s.audios i r } := by
  intro j hj
  have hj2 : isLiveLoopAt (setRateAt s.audios i r) j = true := hj
  rw [isLiveLoopAt_setRateAt] at hj2
  exact h j hj2

theorem tick_preserves_inv (sh sp : Bool) (s : LoopState) (h : LoopInv s) :
    LoopInv (onTickWithPlayerInput sh sp s).1 := by
  cases hfs : s.fartSound with
  | none =>
    rw [tick_eq_none sh sp s hfs]
    intro j hj
    exact h j hj
  | some i =>
    cases hcond : (sp && !s.lastSpace && !s.spaceInterruptActive) with
    | false =>
      rw [tick_eq_some_quiet sh sp s i hfs hcond]
      exact inv_setRate s i _ h
    | true =>
      rw [tick_eq_some_interrupt sh sp s i hfs hcond]
      intro j hj
      have hinv2 : LoopInv
          { s with audios := setRateAt s.audios i (if sh then 5 / 2 else 1) } :=
        inv_setRate s i _ h
      have hnl := noLive_pause_of_inv
        { s with audios := setRateAt s.audios i (if sh then 5 / 2 else 1) } i hinv2 hfs
      have hdead := noLive_append_nonloop _ hnl fartEAudio rfl j
      have hj2 : isLiveLoopAt
          (pauseAt (setRateAt s.audios i (if sh then 5 / 2 else 1)) i
            ++ [fartEAudio]) j = true := hj
      rw [hdead] at hj2
      cases hj2

theorem resume_preserves_inv (e : Option Nat) (s : LoopState) (h : LoopInv s) :
    LoopInv (resumeTimerFire e s).1 := by
  have hpre := attach_preserves_inv e s h
  intro j hj
  exact hpre j hj

theorem applyOp_preserves_inv (op : Op) (s : LoopState) (h : LoopInv s) :
    LoopInv (applyOp op s).1 := by
  cases op with
  | toggle e => exact toggle_preserves_inv e s h
  | tick sh sp => exact tick_preserves_inv sh sp s h
  | timerFire e =>
    simp only [applyOp]
    cases hp : s.spaceInterruptActive with
    | false => simpa using h
    | true => simpa using resume_preserves_inv e s h

theorem runOps_preserves_inv (ops : List Op) (s : LoopState) (h : LoopInv s) :
    LoopInv (runOps ops s) := by
  induction ops generalizing s with
  | nil => exact h
  | cons op rest ih => exact ih _ (applyOp_preserves_inv op s h)

theorem initState_inv : LoopInv initState := by
  intro i hi
  simp [isLiveLoopAt, initState] at hi

theorem reachable_inv (s : LoopState) (h : Reachable s) : LoopInv s := by
  obtain ⟨ops, rfl⟩ := h
  exact runOps_preserves_inv ops initState initState_inv

theorem runOps_append (l1 l2 : List Op) (s : LoopState) :
    runOps (l1 ++ l2) s = runOps l2 (runOps l1 s) := by
  induction l1 generalizing s with
  | nil => rfl
  | cons o rest ih => simp [runOps, ih]

theorem reachable_step (s : LoopState) (h : Reachable s) (op : Op) :
    Reachable (applyOp op s).1 := by
  obtain ⟨ops, rfl⟩ := h
  exact ⟨ops ++ [op], by rw [runOps_append]; rfl⟩

/-! ## Helper lemmas: the scheduler traces -/

theorem data_append (s t : String) : (s ++ t).data = s.data ++ t.data := by
  cases s
  cases t
  rfl

theorem toUpperStr_eq_empty_iff (s : String) : toUpperStr s = "" ↔ s = "" := by
  cases s with
  | mk l =>
    cases l with
    | nil => exact ⟨fun _ => rfl, fun _ => rfl⟩
    | cons a l2 =>
      constructor
      · intro h
        exact absurd (congrArg String.data h :
          (a :: l2).map Char.toUpper = []) (by simp)
      · intro h
        exact absurd (congrArg String.data h : a :: l2 = []) (by simp)

theorem usage_ne_noValid (cmd : String) : usageText cmd ≠ noValidText cmd := by
  intro h
  have hdata := congrArg String.data h
  simp only [usageText, noValidText, data_append] at hdata
  simp only [List.append_assoc, List.cons_append] at hdata
  injection hdata with h1 h2
  exact absurd h1 (by decide)

theorem messagesOf_append (t1 t2 : List (Nat × SEvent)) :
    messagesOf (t1 ++ t2) = messagesOf t1 ++ messagesOf t2 := by
  simp [messagesOf, List.filterMap_append]

theorem attemptsOf_append (t1 t2 : List (Nat × SEvent)) :
    attemptsOf (t1 ++ t2) = attemptsOf t1 ++ attemptsOf t2 := by
  simp [attemptsOf, List.filterMap_append]

theorem playStartsOf_append (t1 t2 : List (Nat × SEvent)) :
    playStartsOf (t1 ++ t2) = playStartsOf t1 ++ playStartsOf t2 := by
  simp [playStartsOf, List.filterMap_append]

theorem runLetters_eq_cons (vf : ℚ) (fails : Char → Bool) (c : Char)
    (rest : List Char) (t : Nat) :
    runLetters vf fails (c :: rest) t =
      ((playAudioWithDuration (soundUriFor c) c vf (fails c)).1.map
          (fun e => (t, e)) ++
        (runLetters vf fails rest
          (t + (playAudioWithDuration (soundUriFor c) c vf (fails c)).2)).1,
       (runLetters vf fails rest
          (t + (playAudioWithDuration (soundUriFor c) c vf (fails c)).2)).2) := rfl

theorem runLetters_messages (vf : ℚ) (fails : Char → Bool) (letters : List Char)
    (t : Nat) : messagesOf (runLetters vf fails letters t).1 = [] := by
  induction letters generalizing t with
  | nil => rfl
  | cons c rest ih =>
    rw [runLetters_eq_cons]
    show messagesOf
      ((playAudioWithDuration (soundUriFor c) c vf (fails c)).1.map (fun e => (t, e)) ++
        (runLetters vf fails rest
          (t + (playAudioWithDuration (soundUriFor c) c vf (fails c)).2)).1) = []
    rw [messagesOf_append, ih]
    cases hf : fails c with
    | false => rfl
    | true => rfl

theorem runLetters_attempts (vf : ℚ) (fails : Char → Bool) (letters : List Char)
    (t : Nat) :
    attemptsOf (runLetters vf fails letters t).1 =
      letters.map (fun c => (c, soundUriFor c)) := by
  induction letters generalizing t with
  | nil => rfl
  | cons c rest ih =>
    rw [runLetters_eq_cons]
    show attemptsOf
      ((playAudioWithDuration (soundUriFor c) c vf (fails c)).1.map (fun e => (t, e)) ++
        (runLetters vf fails rest
          (t + (playAudioWithDuration (soundUriFor c) c vf (fails c)).2)).1) =
      (c, soundUriFor c) :: rest.map (fun c => (c, soundUriFor c))
    rw [attemptsOf_append, ih]
    cases hf : fails c with
    | false => rfl
    | true => rfl

theorem runLetters_playStarts (vf : ℚ) (fails : Char → Bool) (letters : List Char)
    (t : Nat) :
    playStartsOf (runLetters vf fails letters t).1 =
      (letters.filter (fun c => !fails c)).map
        (fun c => (soundUriFor c, 1 * vf)) := by
  induction letters generalizing t with
  | nil => rfl
  | cons c rest ih =>
    rw [runLetters_eq_cons]
    show playStartsOf
      ((playAudioWithDuration (soundUriFor c) c vf (fails c)).1.map (fun e => (t, e)) ++
        (runLetters vf fails rest
          (t + (playAudioWithDuration (soundUriFor c) c vf (fails c)).2)).1) =
      ((c :: rest).filter (fun x => !fails x)).map (fun x => (soundUriFor x, 1 * vf))
    rw [playStartsOf_append, ih]
    cases hf : fails c with
    | false =>
      have hfil : (c :: rest).filter (fun x => !fails x) =
          c :: rest.filter (fun x => !fails x) := by
        simp [hf]
      rw [hfil]
      rfl
    | true =>
      have hfil : (c :: rest).filter (fun x => !fails x) =
          rest.filter (fun x => !fails x) := by
        simp [hf]
      rw [hfil]
      rfl

theorem runLettersV0_eq_skip (vf : ℚ) (ex : String → Bool) (fails : Char → Bool)
    (c : Char) (rest : List Char) (t : Nat) (h : ex (fullPathFor c) = false) :
    runLettersV0 vf ex fails (c :: rest) t =
      ((t, SEvent.log ("File does not exist: " ++ fullPathFor c)) ::
          (runLettersV0 vf ex fails rest t).1,
       (runLettersV0 vf ex fails rest t).2) := by
  simp [runLettersV0, h]

theorem runLettersV0_eq_play (vf : ℚ) (ex : String → Bool) (fails : Char → Bool)
    (c : Char) (rest : List Char) (t : Nat) (h : ex (fullPathFor c) = true) :
    runLettersV0 vf ex fails (c :: rest) t =
      ((playAudioWithDuration (soundUriFor c) c vf (fails c)).1.map
          (fun e => (t, e)) ++
        (runLettersV0 vf ex fails rest
          (t + (playAudioWithDuration (soundUriFor c) c vf (fails c)).2)).1,
       (runLettersV0 vf ex fails rest
          (t + (playAudioWithDuration (soundUriFor c) c vf (fails c)).2)).2) := by
  simp [runLettersV0, h]

theorem runLettersV0_messages (vf : ℚ) (ex : String → Bool) (fails : Char → Bool)
    (letters : List Char) (t : Nat) :
    messagesOf (runLettersV0 vf ex fails letters t).1 = [] := by
  induction letters generalizing t with
  | nil => rfl
  | cons c rest ih =>
    cases hex : ex (fullPathFor c) with
    | false =>
      rw [runLettersV0_eq_skip vf ex fails c rest t hex]
      show messagesOf ((t, SEvent.log ("File does not exist: " ++ fullPathFor c)) ::
        (runLettersV0 vf ex fails rest t).1) = []
      rw [show ((t, SEvent.log ("File does not exist: " ++ fullPathFor c)) ::
        (runLettersV0 vf ex fails rest t).1) =
        [(t, SEvent.log ("File does not exist: " ++ fullPathFor c))] ++
          (runLettersV0 vf ex fails rest t).1 from rfl]
      rw [messagesOf_append, ih]
      rfl
    | true =>
      rw [runLettersV0_eq_play vf ex fails c rest t hex]
      show messagesOf
        ((playAudioWithDuration (soundUriFor c) c vf (fails c)).1.map (fun e => (t, e)) ++
          (runLettersV0 vf ex fails rest
            (t + (playAudioWithDuration (soundUriFor c) c vf (fails c)).2)).1) = []
      rw [messagesOf_append, ih]
      cases hf : fails c with
      | false => rfl
      | true => rfl

theorem runLettersV0_playStarts (vf : ℚ) (ex : String → Bool) (fails : Char → Bool)
    (letters : List Char) (t : Nat) :
    playStartsOf (runLettersV0 vf ex fails letters t).1 =
      (letters.filter (fun c => ex (fullPathFor c) && !fails c)).map
        (fun c => (soundUriFor c, 1 * vf)) := by
  induction letters generalizing t with
  | nil => rfl
  | cons c rest ih =>
    cases hex : ex (fullPathFor c) with
    | false =>
      rw [runLettersV0_eq_skip vf ex fails c rest t hex]
      have hfil : (c :: rest).filter (fun x => ex (fullPathFor x) && !fails x) =
          rest.filter (fun x => ex (fullPathFor x) && !fails x) := by
        simp [hex]
      rw [hfil, ← ih t]
      rfl
    | true =>
      rw [runLettersV0_eq_play vf ex fails c rest t hex]
      show playStartsOf
        ((playAudioWithDuration (soundUriFor c) c vf (fails c)).1.map (fun e => (t, e)) ++
          (runLettersV0 vf ex fails rest
            (t + (playAudioWithDuration (soundUriFor c) c vf (fails c)).2)).1) =
        ((c :: rest).filter (fun x => ex (fullPathFor x) && !fails x)).map
          (fun x => (soundUriFor x, 1 * vf))
      rw [playStartsOf_append, ih]
      cases hf : fails c with
      | false =>
        have hfil : (c :: rest).filter (fun x => ex (fullPathFor x) && !fails x) =
            c :: rest.filter (fun x => ex (fullPathFor x) && !fails x) := by
          simp [hex, hf]
        rw [hfil]
        rfl
      | true =>
        have hfil : (c :: rest).filter (fun x => ex (fullPathFor x) && !fails x) =
            rest.filter (fun x => ex (fullPathFor x) && !fails x) := by
          simp [hex, hf]
        rw [hfil]
        rfl

theorem runLetters_times (vf : ℚ) (fails : Char → Bool) (letters : List Char)
    (t : Nat) :
    t ≤ (runLetters vf fails letters t).2 ∧
    ∀ p ∈ (runLetters vf fails letters t).1,
      p.1 ≤ (runLetters vf fails letters t).2 := by
  induction letters generalizing t with
  | nil =>
    refine ⟨le_refl t, ?_⟩
    intro p hp
    cases hp
  | cons c rest ih =>
    obtain ⟨iht, ihm⟩ :=
      ih (t + (playAudioWithDuration (soundUriFor c) c vf (fails c)).2)
    rw [runLetters_eq_cons]
    constructor
    · exact le_trans (Nat.le_add_right t _) iht
    · intro p hp
      rcases List.mem_append.mp hp with hp1 | hp2
      · obtain ⟨e, he, rfl⟩ := List.mem_map.mp hp1
        exact le_trans (Nat.le_add_right t _) iht
      · exact ihm p hp2

theorem runLettersV0_times (vf : ℚ) (ex : String → Bool) (fails : Char → Bool)
    (letters : List Char) (t : Nat) :
    t ≤ (runLettersV0 vf ex fails letters t).2 ∧
    ∀ p ∈ (runLettersV0 vf ex fails letters t).1,
      p.1 ≤ (runLettersV0 vf ex fails letters t).2 := by
  induction letters generalizing t with
  | nil =>
    refine ⟨le_refl t, ?_⟩
    intro p hp
    cases hp
  | cons c rest ih =>
    cases hex : ex (fullPathFor c) with
    | false =>
      obtain ⟨iht, ihm⟩ := ih t
      rw [runLettersV0_eq_skip vf ex fails c rest t hex]
      refine ⟨iht, ?_⟩
      intro p hp
      rcases List.mem_cons.mp hp with rfl | hp2
      · exact iht
      · exact ihm p hp2
    | true =>
      obtain ⟨iht, ihm⟩ :=
        ih (t + (playAudioWithDuration (soundUriFor c) c vf (fails c)).2)
      rw [runLettersV0_eq_play vf ex fails c rest t hex]
      constructor
      · exact le_trans (Nat.le_add_right t _) iht
      · intro p hp
        rcases List.mem_append.mp hp with hp1 | hp2
        · obtain ⟨e, he, rfl⟩ := List.mem_map.mp hp1
          exact le_trans (Nat.le_add_right t _) iht
        · exact ihm p hp2

theorem specNormalize_of_join_empty (args : List String)
    (h : String.join args = "") : specNormalize args = [] := by
  show (toUpperStr (String.join args)).toList.filter (fun c => 'A' ≤ c && c ≤ 'Z') = []
  rw [h]
  rfl

theorem handleFartSpeak_empty (args : List String) (cmd : String) (vf : ℚ)
    (fails : Char → Bool) (h : String.join args = "") :
    handleFartSpeak args cmd vf fails = [(0, SEvent.message (usageText cmd))] := by
  have h2 : toUpperStr (String.join args) = "" := (toUpperStr_eq_empty_iff _).mpr h
  simp [handleFartSpeak, h2]

theorem handleFartSpeak_noletters (args : List String) (cmd : String) (vf : ℚ)
    (fails : Char → Bool) (hne : String.join args ≠ "")
    (h : specNormalize args = []) :
    handleFartSpeak args cmd vf fails = [(0, SEvent.message (noValidText cmd))] := by
  have h2 : toUpperStr (String.join args) ≠ "" :=
    fun hh => hne ((toUpperStr_eq_empty_iff _).mp hh)
  have h3 : (toUpperStr (String.join args)).toList.filter
      (fun c => 'A' ≤ c && c ≤ 'Z') = [] := h
  simp only [handleFartSpeak]
  rw [if_neg h2, if_pos h3]

theorem handleFartSpeak_run (args : List String) (cmd : String) (vf : ℚ)
    (fails : Char → Bool) (h : specNormalize args ≠ []) :
    handleFartSpeak args cmd vf fails =
      (runLetters vf fails (specNormalize args) 0).1 ++
        [((runLetters vf fails (specNormalize args) 0).2,
          SEvent.message (completionText cmd (specNormalize args)))] := by
  have hne : toUpperStr (String.join args) ≠ "" := by
    intro hh
    apply h
    show (toUpperStr (String.join args)).toList.filter (fun c => 'A' ≤ c && c ≤ 'Z') = []
    rw [hh]
    rfl
  have h3 : (toUpperStr (String.join args)).toList.filter
      (fun c => 'A' ≤ c && c ≤ 'Z') ≠ [] := h
  simp only [handleFartSpeak]
  rw [if_neg hne, if_neg h3]
  rfl

theorem handleFartSpeakV0_empty (args : List String) (cmd : String) (vf : ℚ)
    (ex : String → Bool) (fails : Char → Bool) (h : String.join args = "") :
    handleFartSpeakV0 args cmd vf ex fails =
      [(0, SEvent.message (usageText cmd))] := by
  have h2 : toUpperStr (String.join args) = "" := (toUpperStr_eq_empty_iff _).mpr h
  simp [handleFartSpeakV0, h2]

theorem handleFartSpeakV0_noletters (args : List String) (cmd : String) (vf : ℚ)
    (ex : String → Bool) (fails : Char → Bool) (hne : String.join args ≠ "")
    (h : specNormalize args = []) :
    handleFartSpeakV0 args cmd vf ex fails =
      [(0, SEvent.message (noValidText cmd))] := by
  have h2 : toUpperStr (String.join args) ≠ "" :=
    fun hh => hne ((toUpperStr_eq_empty_iff _).mp hh)
  have h3 : (toUpperStr (String.join args)).toList.filter
      (fun c => 'A' ≤ c && c ≤ 'Z') = [] := h
  simp only [handleFartSpeakV0]
  rw [if_neg h2, if_pos h3]

theorem handleFartSpeakV0_run (args : List String) (cmd : String) (vf : ℚ)
    (ex : String → Bool) (fails : Char → Bool) (h : specNormalize args ≠ []) :
    handleFartSpeakV0 args cmd vf ex fails =
      (runLettersV0 vf ex fails (specNormalize args) 0).1 ++
        [((runLettersV0 vf ex fails (specNormalize args) 0).2,
          SEvent.message (completionText cmd (specNormalize args)))] := by
  have hne : toUpperStr (String.join args) ≠ "" := by
    intro hh
    apply h
    show (toUpperStr (String.join args)).toList.filter (fun c => 'A' ≤ c && c ≤ 'Z') = []
    rw [hh]
    rfl
  have h3 : (toUpperStr (String.join args)).toList.filter
      (fun c => 'A' ≤ c && c ≤ 'Z') ≠ [] := h
  simp only [handleFartSpeakV0]
  rw [if_neg hne, if_neg h3]
  rfl

theorem handleFartSpeak_messages (args : List String) (cmd : String) (vf : ℚ)
    (fails : Char → Bool) :
    messagesOf (handleFartSpeak args cmd vf fails) =
      if String.join args = "" then [usageText cmd]
      else if specNormalize args = [] then [noValidText cmd]
      else [completionText cmd (specNormalize args)] := by
  rcases Decidable.em (String.join args = "") with hj | hj
  · rw [handleFartSpeak_empty args cmd vf fails hj, if_pos hj]
    rfl
  · rcases Decidable.em (specNormalize args = []) with hn | hn
    · rw [handleFartSpeak_noletters args cmd vf fails hj hn, if_neg hj, if_pos hn]
      rfl
    · rw [handleFartSpeak_run args cmd vf fails hn, if_neg hj, if_neg hn,
        messagesOf_append, runLetters_messages]
      rfl

theorem handleFartSpeakV0_messages (args : List String) (cmd : String) (vf : ℚ)
    (ex : String → Bool) (fails : Char → Bool) :
    messagesOf (handleFartSpeakV0 args cmd vf ex fails) =
      if String.join args = "" then [usageText cmd]
      else if specNormalize args = [] then [noValidText cmd]
      else [completionText cmd (specNormalize args)] := by
  rcases Decidable.em (String.join args = "") with hj | hj
  · rw [handleFartSpeakV0_empty args cmd vf ex fails hj, if_pos hj]
    rfl
  · rcases Decidable.em (specNormalize args = []) with hn | hn
    · rw [handleFartSpeakV0_noletters args cmd vf ex fails hj hn, if_neg hj,
        if_pos hn]
      rfl
    · rw [handleFartSpeakV0_run args cmd vf ex fails hn, if_neg hj, if_neg hn,
        messagesOf_append, runLettersV0_messages]
      rfl

theorem handleFartSpeak_attempts (args : List String) (cmd : String) (vf : ℚ)
    (fails : Char → Bool) :
    attemptsOf (handleFartSpeak args cmd vf fails) =
      (specNormalize args).map (fun c => (c, soundUriFor c)) := by
  rcases Decidable.em (String.join args = "") with hj | hj
  · rw [handleFartSpeak_empty args cmd vf fails hj,
      specNormalize_of_join_empty args hj]
    rfl
  · rcases Decidable.em (specNormalize args = []) with hn | hn
    · rw [handleFartSpeak_noletters args cmd vf fails hj hn, hn]
      rfl
    · rw [handleFartSpeak_run args cmd vf fails hn, attemptsOf_append,
        runLetters_attempts,
        show attemptsOf [((runLetters vf fails (specNormalize args) 0).2,
          SEvent.message (completionText cmd (specNormalize args)))] = [] from rfl,
        List.append_nil]

theorem handleFartSpeak_playStarts (args : List String) (cmd : String) (vf : ℚ)
    (fails : Char → Bool) :
    playStartsOf (handleFartSpeak args cmd vf fails) =
      ((specNormalize args).filter (fun c => !fails c)).map
        (fun c => (soundUriFor c, 1 * vf)) := by
  rcases Decidable.em (String.join args = "") with hj | hj
  · rw [handleFartSpeak_empty args cmd vf fails hj,
      specNormalize_of_join_empty args hj]
    rfl
  · rcases Decidable.em (specNormalize args = []) with hn | hn
    · rw [handleFartSpeak_noletters args cmd vf fails hj hn, hn]
      rfl
    · rw [handleFartSpeak_run args cmd vf fails hn, playStartsOf_append,
        runLetters_playStarts,
        show playStartsOf [((runLetters vf fails (specNormalize args) 0).2,
          SEvent.message (completionText cmd (specNormalize args)))] = [] from rfl,
        List.append_nil]

theorem handleFartSpeakV0_playStarts (args : List String) (cmd : String) (vf : ℚ)
    (ex : String → Bool) (fails : Char → Bool) :
    playStartsOf (handleFartSpeakV0 args cmd vf ex fails) =
      ((specNormalize args).filter (fun c => ex (fullPathFor c) && !fails c)).map
        (fun c => (soundUriFor c, 1 * vf)) := by
  rcases Decidable.em (String.join args = "") with hj | hj
  · rw [handleFartSpeakV0_empty args cmd vf ex fails hj,
      specNormalize_of_join_empty args hj]
    rfl
  · rcases Decidable.em (specNormalize args = []) with hn | hn
    · rw [handleFartSpeakV0_noletters args cmd vf ex fails hj hn, hn]
      rfl
    · rw [handleFartSpeakV0_run args cmd vf ex fails hn, playStartsOf_append,
        runLettersV0_playStarts,
        show playStartsOf [((runLettersV0 vf ex fails (specNormalize args) 0).2,
          SEvent.message (completionText cmd (specNormalize args)))] = [] from rfl,
        List.append_nil]


/-! ## Claim theorems -/

/-- C1 (counterexample): from the reachable Interrupted state (loop
paused by a rising edge, resume pending, `fartSound = null`), the
`/fartstep` toggle does not transition to Off: it attaches a fresh live
looping resource, because the handler only tests the `fartSound`
reference.  The claim "if state is Looping or Interrupted, toggle
transitions to Off by releasing the sound resource" is therefore false
for Interrupted. -/
theorem fartstep_toggle_interrupted_not_off :
    (runOps [Op.toggle (some 0), Op.tick false true] initState).fartSound = none
    ∧ (runOps [Op.toggle (some 0), Op.tick false true]
        initState).spaceInterruptActive = true
    ∧ (fartstepToggle (some 0)
        (runOps [Op.toggle (some 0), Op.tick false true] initState)).1.fartSound
        = some 2
    ∧ isLiveLoopAt (fartstepToggle (some 0)
        (runOps [Op.toggle (some 0), Op.tick false true] initState)).1.audios 2
        = true :=
  ⟨rfl, rfl, rfl, rfl⟩

/-- C1 (amended): for every reachable state and present player entity,
the `/fartstep` toggle releases the loop and transitions to Off exactly
when a live loop reference exists (state Looping); when the reference is
empty — state Off or Interrupted — it acquires and starts a fresh
continuous sound bound to the player entity; and two consecutive toggles
starting with an empty reference (in particular from Off) end with no
live resource. -/
theorem fartstep_toggle_spec (s : LoopState) (hs : Reachable s) (e : Nat) :
    ToggleSpec s e := by
  have hinv := reachable_inv s hs
  refine ⟨?_, ?_, ?_⟩
  · intro i hi
    have hres := toggle_eq_some (some e) s i hi
    refine ⟨by rw [hres], ?_⟩
    rw [hres]
    intro j
    exact noLive_pause_of_inv s i hinv hi j
  · intro hn
    rw [toggle_eq_none (some e) s hn]
    exact attach_some_live e s
  · intro hn
    have hlive : liveAttachedLoop (fartstepToggle (some e) s).1 e := by
      rw [toggle_eq_none (some e) s hn]
      exact attach_some_live e s
    obtain ⟨n, hn1, -, -⟩ := hlive
    have hs1 : Reachable (fartstepToggle (some e) s).1 :=
      reachable_step s hs (Op.toggle (some e))
    have hinv1 := reachable_inv _ hs1
    have hres := toggle_eq_some (some e) (fartstepToggle (some e) s).1 n hn1
    refine ⟨by rw [hres], ?_⟩
    rw [hres]
    intro j
    exact noLive_pause_of_inv _ n hinv1 hn1 j

/-- C1 (witness): the toggle specification instantiated at the initial
state with entity 0. -/
theorem fartstep_toggle_spec_witness :
    Reachable initState ∧ ToggleSpec initState 0 :=
  ⟨⟨[], rfl⟩, fartstep_toggle_spec initState ⟨[], rfl⟩ 0⟩

/-- C2: while Looping (live reference, previous Space flag clear, no
interrupt pending), a tick with the Space flag set emits exactly one
pause of the live handle, exactly one one-shot playback, and exactly one
resume scheduled 1000 ms later, clearing the loop reference and setting
the pending flag; and any tick taken while the pending flag is set emits
no interrupt events at all. -/
theorem tick_rising_edge_spec (s : LoopState) (i : Nat) (sh : Bool)
    (hfs : s.fartSound = some i) (hlast : s.lastSpace = false)
    (hpend : s.spaceInterruptActive = false) :
    TickInterruptSpec s i sh ∧
      ∀ (s2 : LoopState) (sh2 sp2 : Bool), s2.spaceInterruptActive = true →
        (onTickWithPlayerInput sh2 sp2 s2).2 = [] := by
  constructor
  · have hcond : (true && !s.lastSpace && !s.spaceInterruptActive) = true := by
      rw [hlast, hpend]
      rfl
    have hres := tick_eq_some_interrupt sh true s i hfs hcond
    refine ⟨by rw [hres], by rw [hres], by rw [hres], ?_⟩
    rw [hres]
    show isLiveLoopAt
      (pauseAt (setRateAt s.audios i (if sh then 5 / 2 else 1)) i ++ [fartEAudio])
      i = false
    rcases Nat.lt_or_ge i
        (pauseAt (setRateAt s.audios i (if sh then 5 / 2 else 1)) i).length
      with hlt | hge
    · rw [isLiveLoopAt_append_lt _ _ _ hlt]
      exact isLiveLoopAt_pauseAt_self _ _
    · rw [isLiveLoopAt_append_ge _ _ _ hge]
      cases hk : i -
          (pauseAt (setRateAt s.audios i (if sh then 5 / 2 else 1)) i).length with
      | zero => simp [isLiveLoopAt, fartEAudio]
      | succ k => simp [isLiveLoopAt]
  · intro s2 sh2 sp2 hp2
    cases hfs2 : s2.fartSound with
    | none => rw [tick_eq_none sh2 sp2 s2 hfs2]
    | some k =>
      have hcond2 : (sp2 && !s2.lastSpace && !s2.spaceInterruptActive) = false := by
        rw [hp2]
        simp
      rw [tick_eq_some_quiet sh2 sp2 s2 k hfs2 hcond2]

/-- C2 (witness): the interrupt specification instantiated at the state
reached by toggling the loop on. -/
theorem tick_rising_edge_witness :
    (runOps [Op.toggle (some 0)] initState).fartSound = some 0 ∧
    (runOps [Op.toggle (some 0)] initState).lastSpace = false ∧
    (runOps [Op.toggle (some 0)] initState).spaceInterruptActive = false ∧
    (TickInterruptSpec (runOps [Op.toggle (some 0)] initState) 0 false ∧
      ∀ (s2 : LoopState) (sh2 sp2 : Bool), s2.spaceInterruptActive = true →
        (onTickWithPlayerInput sh2 sp2 s2).2 = []) :=
  ⟨rfl, rfl, rfl, tick_rising_edge_spec _ 0 false rfl rfl rfl⟩

/-- C3: for every argument list, every command name, volume factor and
failure oracle, the letters for which playback is attempted, in order,
are exactly the concatenated arguments uppercased and filtered to A-Z
(the spec-side normalization `specNormalize`), and every attempt uses
the identifier `audio/sfx/farts/fart<LETTER>.mp3` built from its
letter. -/
theorem speak_letters_normalization (args : List String) (cmd : String)
    (vf : ℚ) (fails : Char → Bool) :
    (attemptsOf (handleFartSpeak args cmd vf fails)).map Prod.fst =
      specNormalize args ∧
    ∀ p ∈ attemptsOf (handleFartSpeak args cmd vf fails),
      p.2 = "audio/sfx/farts/fart" ++ p.1.toString ++ ".mp3" := by
  constructor
  · rw [handleFartSpeak_attempts, List.map_map]
    exact List.map_id _
  · intro p hp
    rw [handleFartSpeak_attempts] at hp
    obtain ⟨c, hc, rfl⟩ := List.mem_map.mp hp
    rfl

/-- C3 (witness): the normalization property evaluated on the argument
list `["SAm!"]`. -/
theorem speak_letters_normalization_witness :
    (attemptsOf (handleFartSpeak ["SAm!"] "/fartspeak" 1 (fun _ => false))).map
      Prod.fst = specNormalize ["SAm!"] ∧
    ∀ p ∈ attemptsOf (handleFartSpeak ["SAm!"] "/fartspeak" 1 (fun _ => false)),
      p.2 = "audio/sfx/farts/fart" ++ p.1.toString ++ ".mp3" :=
  speak_letters_normalization ["SAm!"] "/fartspeak" 1 (fun _ => false)

/-- C5: for every letter the effective pacing duration is
`max(1, table value)` seconds — absent letters default to 1, zero entries
are raised to 1 — and the scheduler's delay on a successful playback is
`safeDuration * 1000` ms, never below 1000 ms. -/
theorem duration_floor_spec (c : Char) (uri : String) (vf : ℚ) :
    safeDuration c = max 1 ((FART_DURATIONS c).getD 1) ∧
    1 ≤ safeDuration c ∧
    (FART_DURATIONS c = none → safeDuration c = 1) ∧
    (playAudioWithDuration uri c vf false).2 = safeDuration c * 1000 ∧
    1000 ≤ (playAudioWithDuration uri c vf false).2 := by
  have hgen : ∀ d : Nat, (if d < 1 then 1 else d) = max 1 d := by
    intro d
    split
    · omega
    · omega
  have h1 : safeDuration c = max 1 ((FART_DURATIONS c).getD 1) :=
    hgen ((FART_DURATIONS c).getD 1)
  have h2 : 1 ≤ safeDuration c := by
    rw [h1]
    exact Nat.le_max_left 1 _
  refine ⟨h1, h2, ?_, rfl, ?_⟩
  · intro hn
    rw [h1, hn]
    rfl
  · show 1000 ≤ safeDuration c * 1000
    calc 1000 = 1 * 1000 := by omega
      _ ≤ safeDuration c * 1000 := Nat.mul_le_mul_right 1000 h2

/-- C5 (witness): the duration floor evaluated at the digit `0`, a
character absent from the table. -/
theorem duration_floor_witness :
    safeDuration '0' = max 1 ((FART_DURATIONS '0').getD 1) ∧
    1 ≤ safeDuration '0' ∧
    (FART_DURATIONS '0' = none → safeDuration '0' = 1) ∧
    (playAudioWithDuration "u" '0' 1 false).2 = safeDuration '0' * 1000 ∧
    1000 ≤ (playAudioWithDuration "u" '0' 1 false).2 :=
  duration_floor_spec '0' "u" 1

/-- C6: an empty joined input yields exactly the usage hint and zero
playback starts; a non-empty input whose normalization leaves no letters
yields exactly the no-valid-letters hint and zero playback starts; and
the two texts differ for every command name. -/
theorem speak_empty_and_invalid (args : List String) (cmd : String) (vf : ℚ)
    (fails : Char → Bool) :
    (String.join args = "" →
      handleFartSpeak args cmd vf fails = [(0, SEvent.message (usageText cmd))] ∧
      playStartsOf (handleFartSpeak args cmd vf fails) = []) ∧
    (String.join args ≠ "" → specNormalize args = [] →
      handleFartSpeak args cmd vf fails =
        [(0, SEvent.message (noValidText cmd))] ∧
      playStartsOf (handleFartSpeak args cmd vf fails) = []) ∧
    usageText cmd ≠ noValidText cmd := by
  refine ⟨?_, ?_, usage_ne_noValid cmd⟩
  · intro hj
    have he := handleFartSpeak_empty args cmd vf fails hj
    exact ⟨he, by simp [he, playStartsOf]⟩
  · intro hj hn
    have he := handleFartSpeak_noletters args cmd vf fails hj hn
    exact ⟨he, by simp [he, playStartsOf]⟩

/-- C6 (witness): the empty-input case on `[]` and the no-letters case
on `["123"]`. -/
theorem speak_empty_invalid_witness :
    (String.join ([] : List String) = "" ∧
      handleFartSpeak [] "/fartspeak" 1 (fun _ => false) =
        [(0, SEvent.message (usageText "/fartspeak"))]) ∧
    (String.join ["123"] ≠ "" ∧ specNormalize ["123"] = [] ∧
      handleFartSpeak ["123"] "/fartspeak" 1 (fun _ => false) =
        [(0, SEvent.message (noValidText "/fartspeak"))]) :=
  ⟨⟨rfl, ((speak_empty_and_invalid [] "/fartspeak" 1 (fun _ => false)).1 rfl).1⟩,
   ⟨by decide, rfl,
    (((speak_empty_and_invalid ["123"] "/fartspeak" 1 (fun _ => false)).2).1
      (by decide) rfl).1⟩⟩

/-- C7: a failing playback start is logged and resolves immediately
(delay 0), the attempted letters and the messages sent to the player are
identical to the all-successes run (main variant), and in the `part_000`
variant the messages are likewise independent of both the file-existence
and failure oracles; no failure aborts the sequence. -/
theorem speak_failure_swallowed (args : List String) (cmd : String) (vf : ℚ)
    (ex : String → Bool) (fails : Char → Bool) :
    messagesOf (handleFartSpeak args cmd vf fails) =
      messagesOf (handleFartSpeak args cmd vf (fun _ => false)) ∧
    attemptsOf (handleFartSpeak args cmd vf fails) =
      attemptsOf (handleFartSpeak args cmd vf (fun _ => false)) ∧
    (∀ uri c, (playAudioWithDuration uri c vf true).1 =
        [SEvent.attempt uri c,
         SEvent.log ("Failed to play sound: " ++ uri)] ∧
      (playAudioWithDuration uri c vf true).2 = 0) ∧
    messagesOf (handleFartSpeakV0 args cmd vf ex fails) =
      messagesOf (handleFartSpeakV0 args cmd vf (fun _ => true)
        (fun _ => false)) := by
  refine ⟨?_, ?_, ?_, ?_⟩
  · rw [handleFartSpeak_messages, handleFartSpeak_messages]
  · rw [handleFartSpeak_attempts, handleFartSpeak_attempts]
  · intro uri c
    exact ⟨rfl, rfl⟩
  · rw [handleFartSpeakV0_messages, handleFartSpeakV0_messages]

/-- C8 (counterexample): in the `part_000` variant with the `fartA.mp3`
file missing, the input `SA` plays only `fartS.mp3`, yet the completion
message still names `SA` — the skipped letter included — so the message
does not name exactly the letters actually played. -/
theorem speak_completion_counterexample :
    playStartsOf (handleFartSpeakV0 ["SA"] "/fartspeak" 1
        (fun p => p != fullPathFor 'A') (fun _ => false)) =
      [("audio/sfx/farts/fartS.mp3", 1 * 1)] ∧
    messagesOf (handleFartSpeakV0 ["SA"] "/fartspeak" 1
        (fun p => p != fullPathFor 'A') (fun _ => false)) =
      [completionText "/fartspeak" ['S', 'A']] ∧
    completionText "/fartspeak" ['S', 'A'] ≠ completionText "/fartspeak" ['S'] :=
  ⟨rfl, rfl, by decide⟩

/-- C8 (amended): for every invocation that reaches playback, exactly one
completion message is emitted, as the last event and no earlier than any
other event's virtual time, and it names the normalized (filtered)
letters — every letter for which a playback step was scheduled, including
letters whose playback was skipped or failed — not the raw input. -/
theorem speak_completion_message (args : List String) (cmd : String) (vf : ℚ)
    (ex : String → Bool) (fails : Char → Bool) (h : specNormalize args ≠ []) :
    CompletionSpec (handleFartSpeakV0 args cmd vf ex fails) cmd
      (specNormalize args) ∧
    CompletionSpec (handleFartSpeak args cmd vf fails) cmd
      (specNormalize args) := by
  have hj : String.join args ≠ "" := by
    intro hh
    exact h (specNormalize_of_join_empty args hh)
  constructor
  · refine ⟨(runLettersV0 vf ex fails (specNormalize args) 0).1,
      (runLettersV0 vf ex fails (specNormalize args) 0).2,
      handleFartSpeakV0_run args cmd vf ex fails h, ?_, ?_⟩
    · exact (runLettersV0_times vf ex fails (specNormalize args) 0).2
    · rw [handleFartSpeakV0_messages, if_neg hj, if_neg h]
  · refine ⟨(runLetters vf fails (specNormalize args) 0).1,
      (runLetters vf fails (specNormalize args) 0).2,
      handleFartSpeak_run args cmd vf fails h, ?_, ?_⟩
    · exact (runLetters_times vf fails (specNormalize args) 0).2
    · rw [handleFartSpeak_messages, if_neg hj, if_neg h]

/-- C8 (witness): the completion specification evaluated on `["SAM"]`. -/
theorem speak_completion_witness :
    specNormalize ["SAM"] ≠ [] ∧
    (CompletionSpec (handleFartSpeakV0 ["SAM"] "/fartspeak" 1 (fun _ => true)
        (fun _ => false)) "/fartspeak" (specNormalize ["SAM"]) ∧
      CompletionSpec (handleFartSpeak ["SAM"] "/fartspeak" 1 (fun _ => false))
        "/fartspeak" (specNormalize ["SAM"])) :=
  ⟨by decide, speak_completion_message ["SAM"] "/fartspeak" 1 (fun _ => true)
    (fun _ => false) (by decide)⟩

/-- C9: the three `part_000` entry points `/fartspeak`, `/fartloud`,
`/fartwhisper` route to the same scheduler with volume factors 1, 2 and
0.3 and the same arguments otherwise (and `/fartspeak` of the main
variant with factor 1); and within one invocation every playback start
carries the same volume `1.0 * factor`. -/
theorem volume_routing (args : List String) (ex : String → Bool)
    (fails : Char → Bool) (cmd : String) (vf : ℚ) :
    fartspeakCommandV0 args ex fails =
      handleFartSpeakV0 args "/fartspeak" 1 ex fails ∧
    fartloudCommandV0 args ex fails =
      handleFartSpeakV0 args "/fartloud" 2 ex fails ∧
    fartwhisperCommandV0 args ex fails =
      handleFartSpeakV0 args "/fartwhisper" (3 / 10) ex fails ∧
    fartspeakCommand args fails = handleFartSpeak args "/fartspeak" 1 fails ∧
    (∀ p ∈ playStartsOf (handleFartSpeak args cmd vf fails), p.2 = 1 * vf) ∧
    (∀ p ∈ playStartsOf (handleFartSpeakV0 args cmd vf ex fails),
      p.2 = 1 * vf) := by
  refine ⟨rfl, rfl, rfl, rfl, ?_, ?_⟩
  · intro p hp
    rw [handleFartSpeak_playStarts] at hp
    obtain ⟨c, hc, rfl⟩ := List.mem_map.mp hp
    rfl
  · intro p hp
    rw [handleFartSpeakV0_playStarts] at hp
    obtain ⟨c, hc, rfl⟩ := List.mem_map.mp hp
    rfl

/-- C9 (witness): the routing and volume property evaluated on `["A"]`
with factor 2. -/
theorem volume_routing_witness :
    fartspeakCommandV0 ["A"] (fun _ => true) (fun _ => false) =
      handleFartSpeakV0 ["A"] "/fartspeak" 1 (fun _ => true) (fun _ => false) ∧
    fartloudCommandV0 ["A"] (fun _ => true) (fun _ => false) =
      handleFartSpeakV0 ["A"] "/fartloud" 2 (fun _ => true) (fun _ => false) ∧
    fartwhisperCommandV0 ["A"] (fun _ => true) (fun _ => false) =
      handleFartSpeakV0 ["A"] "/fartwhisper" (3 / 10) (fun _ => true)
        (fun _ => false) ∧
    fartspeakCommand ["A"] (fun _ => false) =
      handleFartSpeak ["A"] "/fartspeak" 1 (fun _ => false) ∧
    (∀ p ∈ playStartsOf (handleFartSpeak ["A"] "/fartloud" 2 (fun _ => false)),
      p.2 = 1 * 2) ∧
    (∀ p ∈ playStartsOf (handleFartSpeakV0 ["A"] "/fartloud" 2 (fun _ => true)
        (fun _ => false)), p.2 = 1 * 2) :=
  volume_routing ["A"] (fun _ => true) (fun _ => false) "/fartloud" 2

/-- C4: in every reachable controller state at most one looping sound
resource is live: any two live loop handle indices coincide, because
every acquisition first pauses the existing handle. -/
theorem single_live_loop_invariant (s : LoopState) (hs : Reachable s) :
    ∀ i j, isLiveLoopAt s.audios i = true → isLiveLoopAt s.audios j = true →
      i = j := by
  intro i j hi hj
  have hinv := reachable_inv s hs
  have h1 := hinv i hi
  have h2 := hinv j hj
  rw [h1] at h2
  exact Option.some.inj h2

/-- C4 (witness): the invariant instantiated at the state reached by
toggling the loop on once. -/
theorem single_live_loop_witness :
    Reachable (runOps [Op.toggle (some 0)] initState) ∧
    ∀ i j, isLiveLoopAt (runOps [Op.toggle (some 0)] initState).audios i = true →
      isLiveLoopAt (runOps [Op.toggle (some 0)] initState).audios j = true →
      i = j :=
  ⟨⟨[Op.toggle (some 0)], rfl⟩,
   single_live_loop_invariant _ ⟨[Op.toggle (some 0)], rfl⟩⟩

/-- C10: when the resume timer fires in a pending state, the pending flag
is cleared unconditionally; with a player entity present a fresh live
loop is attached to it (Looping), and with no entity the state is left
untouched apart from the flag — in particular an empty loop reference
stays empty (Off) — with a warning logged. -/
theorem resume_timer_clears_pending (s : LoopState) (e : Option Nat)
    (hp : s.spaceInterruptActive = true) : ResumeSpec s e := by
  have happ : applyOp (Op.timerFire e) s = resumeTimerFire e s := by
    simp [applyOp, hp]
  refine ⟨?_, ?_, ?_⟩
  · rw [happ]
    rfl
  · intro ent he
    subst he
    rw [happ]
    obtain ⟨n, h1, h2, h3⟩ := attach_some_live ent s
    exact ⟨n, h1, h2, h3⟩
  · intro he
    subst he
    rw [happ]
    exact ⟨rfl, rfl, rfl⟩

/-- C10 (witness): the resume specification instantiated at the pending
state reached by toggling on and interrupting. -/
theorem resume_timer_witness :
    (runOps [Op.toggle (some 0), Op.tick false true]
      initState).spaceInterruptActive = true ∧
    ResumeSpec (runOps [Op.toggle (some 0), Op.tick false true] initState)
      (some 0) :=
  ⟨rfl, resume_timer_clears_pending _ _ rfl⟩

end Fartopia
